import Mathlib

set_option maxRecDepth 100000

/-!
Verification of the memory-game session engine.

Shallow embedding of the core of the `sa-memory-game` repository:
the difficulty presets and data model (`src/app/types/game.ts`),
the scoring module (`calculateScoreBreakdown` and friends),
board generation and validation (`src/app/utils/gameLogic.ts`),
the session reducer and its evaluation effect
(`src/app/hooks/useGameState.ts`), and the pause-aware timer
(`src/app/hooks/useTimer.ts`).

JavaScript numbers are modelled as `ℤ` (all values the engine computes
are integers) with `ℚ` used where a computation passes through a
non-integral intermediate value before `Math.round`; `Math.round` is
`fun q => ⌊q + 1/2⌋` (round half towards `+∞`), and `Math.floor` of an
integer quotient is integer floor division (`Int.ediv`, the `/` of `ℤ`).
Calls to `Math.random` are modelled by an explicit oracle `rand : ℕ → ℕ`;
the index drawn at loop position `i` is `rand i % (i + 1)`, which ranges
over exactly the values `Math.floor(Math.random() * (i + 1))` can take.
-/

namespace MemoryGame

/-! ### Data model (`src/app/types/game.ts`) -/

inductive Difficulty
  | easy
  | medium
  | hard
  | expert
deriving DecidableEq

inductive GameStatus
  | setup
  | playing
  | paused
  | completed
deriving DecidableEq

structure Card where
  id : ℕ
  emoji : String
  isFlipped : Bool
  isMatched : Bool
  pairId : ℕ
deriving DecidableEq

structure EmojiCategory where
  id : String
  name : String
  emojis : List String
  description : String
deriving DecidableEq

structure DifficultyConfig where
  rows : ℕ
  cols : ℕ
  pairs : ℕ
deriving DecidableEq

def DIFFICULTY_CONFIGS : Difficulty → DifficultyConfig
  | .easy => ⟨4, 4, 8⟩
  | .medium => ⟨4, 6, 12⟩
  | .hard => ⟨6, 6, 18⟩
  | .expert => ⟨6, 8, 24⟩

/-! ### Scoring module (`src/unnamed/part_017`) -/

/-- JavaScript's `Math.round`: round half towards positive infinity. -/
def jsRound (q : ℚ) : ℤ := ⌊q + 1/2⌋

def BASE_MATCH_POINTS : ℤ := 100
def PERFECT_MATCH_BONUS : ℤ := 500
def TIME_BONUS_MAX : ℚ := 1000
def TIME_BONUS_THRESHOLD : ℚ := 300
def MOVE_PENALTY_MULTIPLIER : ℤ := 10
def COMPLETION_BONUS : ℤ := 200

def DIFFICULTY_MULTIPLIERS : Difficulty → ℚ
  | .easy => 1
  | .medium => 3/2
  | .hard => 2
  | .expert => 5/2

def calculateOptimalMoves (difficulty : Difficulty) : ℕ :=
  (DIFFICULTY_CONFIGS difficulty).pairs

def calculateTimeBonus (timeElapsed : ℤ) : ℤ :=
  if timeElapsed ≤ 0 then 1000
  else jsRound (max 0 (TIME_BONUS_MAX * (1 - (timeElapsed : ℚ) / TIME_BONUS_THRESHOLD)))

def calculateMoveEfficiencyScore (moves : ℕ) (difficulty : Difficulty) : ℤ :=
  let moveDifference : ℤ := (moves : ℤ) - (calculateOptimalMoves difficulty : ℤ)
  if moveDifference ≤ 0 then |moveDifference| * MOVE_PENALTY_MULTIPLIER
  else -moveDifference * MOVE_PENALTY_MULTIPLIER

def calculateDifficultyBonus (baseScore : ℤ) (difficulty : Difficulty) : ℤ :=
  jsRound ((baseScore : ℚ) * (DIFFICULTY_MULTIPLIERS difficulty - 1))

structure ScoreBreakdown where
  baseScore : ℤ
  timeBonus : ℤ
  moveEfficiency : ℤ
  difficultyBonus : ℤ
  completionBonus : ℤ
  perfectBonus : ℤ
  totalScore : ℤ
deriving DecidableEq

def calculateScoreBreakdown (difficulty : Difficulty) (timeElapsed : ℤ)
    (moves : ℕ) (matchedPairs : ℕ) (isCompleted : Bool) : ScoreBreakdown :=
  let baseScore : ℤ := (matchedPairs : ℤ) * BASE_MATCH_POINTS
  let difficultyBonus := calculateDifficultyBonus baseScore difficulty
  let timeBonus := if isCompleted then calculateTimeBonus timeElapsed else 0
  let moveEfficiency := if isCompleted then calculateMoveEfficiencyScore moves difficulty else 0
  let completionBonus := if isCompleted then COMPLETION_BONUS else 0
  let perfectBonus :=
    if isCompleted then
      (if moves = calculateOptimalMoves difficulty then PERFECT_MATCH_BONUS else 0)
    else 0
  let totalScore :=
    max 0 (baseScore + difficultyBonus + timeBonus + moveEfficiency + completionBonus + perfectBonus)
  { baseScore := baseScore, timeBonus := timeBonus, moveEfficiency := moveEfficiency,
    difficultyBonus := difficultyBonus, completionBonus := completionBonus,
    perfectBonus := perfectBonus, totalScore := totalScore }

/-! ### Fisher–Yates shuffle (`fisherYatesShuffle` in `src/app/utils/gameLogic.ts`;
the reducer's local `createGameBoard` in `src/app/hooks/useGameState.ts`
inlines the identical loop). -/

/-- One swap of the Fisher–Yates loop body
(`[a[i], a[j]] = [a[j], a[i]]`). Out-of-range indices leave the list
unchanged (never happens in the loop). -/
def listSwap {α : Type} (l : List α) (i j : ℕ) : List α :=
  match l[i]?, l[j]? with
  | some a, some b => (l.set i b).set j a
  | _, _ => l

/-- The loop `for i from length-1 down to 1: swap i (rand i % (i+1))`.
The argument is the highest index still to be processed. -/
def fyAux {α : Type} (rand : ℕ → ℕ) : ℕ → List α → List α
  | 0, l => l
  | i + 1, l => fyAux rand i (listSwap l (i + 1) (rand (i + 1) % (i + 2)))

def fisherYatesShuffle {α : Type} (rand : ℕ → ℕ) (l : List α) : List α :=
  fyAux rand (l.length - 1) l

/-! ### Board generation and pure helpers (`src/app/utils/gameLogic.ts`,
random selection helpers from `src/app/utils/emojiData.ts`) -/

namespace GameLogic

def validateCategoryForDifficulty (category : EmojiCategory) (requiredPairs : ℕ) : Bool :=
  requiredPairs ≤ category.emojis.length

/-- `getRandomEmojis` from `emojiData.ts`: shuffle the pool, take the first
`count`. Throwing is modelled by `Except.error`. -/
def getRandomEmojis (rand : ℕ → ℕ) (category : EmojiCategory) (count : ℕ) :
    Except String (List String) :=
  if category.emojis.length < count then
    .error ("Not enough emojis in category " ++ category.name)
  else
    .ok ((fisherYatesShuffle rand category.emojis).take count)

def generateEmojiPairs (rand : ℕ → ℕ) (category : EmojiCategory) (pairCount : ℕ) :
    Except String (List String) :=
  if ¬ validateCategoryForDifficulty category pairCount then
    .error ("Category " ++ category.name ++ " does not have enough emojis for " ++
      toString pairCount ++ " pairs")
  else
    getRandomEmojis rand category pairCount

/-- The card-building loop shared by both `createGameBoard` variants:
two cards per selected emoji, ids `2*pairIndex` and `2*pairIndex+1`,
`pairId = pairIndex`, both face down. -/
def mkPairedCards (selectedEmojis : List String) : List Card :=
  selectedEmojis.enum.flatMap fun pe =>
    [{ id := 2 * pe.1, emoji := pe.2, isFlipped := false, isMatched := false, pairId := pe.1 },
     { id := 2 * pe.1 + 1, emoji := pe.2, isFlipped := false, isMatched := false, pairId := pe.1 }]

/-- `shuffledCards.forEach((card, index) => card.id = index)`. -/
def reassignIds (l : List Card) : List Card :=
  l.enum.map fun p => { p.2 with id := p.1 }

/-- `createGameBoard` from `gameLogic.ts`. `randSel` drives the shuffle inside
`getRandomEmojis`, `randShuffle` the shuffle of the card list (the two are
successive draws from the same `Math.random` stream). -/
def createGameBoard (randSel randShuffle : ℕ → ℕ) (difficulty : Difficulty)
    (category : EmojiCategory) : Except String (List Card) := do
  let pairs := (DIFFICULTY_CONFIGS difficulty).pairs
  let selectedEmojis ← generateEmojiPairs randSel category pairs
  let cards := mkPairedCards selectedEmojis
  let shuffledCards := fisherYatesShuffle randShuffle cards
  pure (reassignIds shuffledCards)

def getCardById (board : List Card) (cardId : ℕ) : Option Card :=
  board.find? fun c => c.id == cardId

def canFlipCard (card : Option Card) (flippedCardsCount : ℕ) (gameStatus : GameStatus) : Bool :=
  match card with
  | none => false
  | some c =>
    if gameStatus ≠ .playing then false
    else if c.isFlipped || c.isMatched then false
    else if 2 ≤ flippedCardsCount then false
    else true

/-- `validateGameBoard`: total size `pairs*2`, the per-`pairId` counts all 2,
and the number of distinct `pairId`s equal to `pairs` (the `Map` built by the
source holds one entry per distinct `pairId`, with its multiplicity). -/
def validateGameBoard (board : List Card) (difficulty : Difficulty) : Bool :=
  let expectedCards := (DIFFICULTY_CONFIGS difficulty).pairs * 2
  let pids := board.map (·.pairId)
  board.length == expectedCards &&
    pids.dedup.all (fun k => pids.count k == 2) &&
    pids.dedup.length == (DIFFICULTY_CONFIGS difficulty).pairs

end GameLogic

/-! ### Session state machine (`src/app/hooks/useGameState.ts`) -/

structure GameState where
  board : List Card
  flippedCards : List ℕ
  matchedPairs : List ℕ
  moves : ℕ
  timeElapsed : ℤ
  gameStatus : GameStatus
  difficulty : Difficulty
  category : EmojiCategory
  score : ℤ
deriving DecidableEq

def initialGameState : GameState where
  board := []
  flippedCards := []
  matchedPairs := []
  moves := 0
  timeElapsed := 0
  gameStatus := .setup
  difficulty := .easy
  category :=
    { id := "food", name := "Food & Drink",
      emojis := ["🍎", "🍌", "🍇", "🍊", "🍋", "🍉", "🍓", "🥝"],
      description := "Delicious foods and beverages" }
  score := 0

namespace UseGameState

/-- The reducer's local `createGameBoard` (`useGameState.ts:174`): takes the
first `pairs` emojis of the category (no validation), builds the pairs,
shuffles, and re-derives ids from shuffled positions. -/
def createGameBoard (rand : ℕ → ℕ) (difficulty : Difficulty) (category : EmojiCategory) :
    List Card :=
  let pairs := (DIFFICULTY_CONFIGS difficulty).pairs
  let selectedEmojis := category.emojis.take pairs
  GameLogic.reassignIds (fisherYatesShuffle rand (GameLogic.mkPairedCards selectedEmojis))

end UseGameState

/-- The actions of `gameReducer`. `START_GAME` carries the randomness oracle
consumed by its board build. -/
inductive GameAction
  | START_GAME (difficulty : Difficulty) (category : EmojiCategory) (rand : ℕ → ℕ)
  | FLIP_CARD (cardId : ℕ)
  | MATCH_CARDS (cardIds : List ℕ)
  | UNMATCH_CARDS (cardIds : List ℕ)
  | PAUSE_GAME
  | RESUME_GAME
  | UPDATE_TIME (timeElapsed : ℤ)
  | RESET_GAME
  | COMPLETE_GAME

def gameReducer (state : GameState) : GameAction → GameState
  | .START_GAME difficulty category rand =>
    { state with
      board := UseGameState.createGameBoard rand difficulty category
      flippedCards := []
      matchedPairs := []
      moves := 0
      timeElapsed := 0
      gameStatus := .playing
      difficulty := difficulty
      category := category
      score := 0 }
  | .FLIP_CARD cardId =>
    if state.gameStatus ≠ .playing then state
    else
      match state.board.find? (fun c => c.id == cardId) with
      | none => state
      | some card =>
        if card.isFlipped || card.isMatched then state
        else if 2 ≤ state.flippedCards.length then state
        else
          { state with
            board := state.board.map fun c =>
              if c.id == cardId then { c with isFlipped := true } else c
            flippedCards := state.flippedCards ++ [cardId] }
  | .MATCH_CARDS cardIds =>
    match cardIds with
    | [firstCardId, secondCardId] =>
      let newBoard := state.board.map fun card =>
        if card.id == firstCardId || card.id == secondCardId then
          { card with isMatched := true, isFlipped := true }
        else card
      let newMatchedPairs :=
        match state.board.find? (fun c => c.id == firstCardId) with
        | some firstCard => state.matchedPairs ++ [firstCard.pairId]
        | none => state.matchedPairs
      let newMoves := state.moves + 1
      let timeBonus := max 0 (1000 - state.timeElapsed)
      let moveBonus := max 0 (1000 - (newMoves : ℤ) * 10)
      let newScore := state.score + 100 + timeBonus + moveBonus
      let totalPairs := (DIFFICULTY_CONFIGS state.difficulty).pairs
      let gameCompleted := newMatchedPairs.length == totalPairs
      { state with
        board := newBoard
        flippedCards := []
        matchedPairs := newMatchedPairs
        moves := newMoves
        score := newScore
        gameStatus := if gameCompleted then .completed else .playing }
    | _ => state
  | .UNMATCH_CARDS cardIds =>
    match cardIds with
    | [firstCardId, secondCardId] =>
      { state with
        board := state.board.map fun card =>
          if card.id == firstCardId || card.id == secondCardId then
            { card with isFlipped := false }
          else card
        flippedCards := []
        moves := state.moves + 1 }
    | _ => state
  | .PAUSE_GAME => { state with gameStatus := .paused }
  | .RESUME_GAME => { state with gameStatus := .playing }
  | .UPDATE_TIME timeElapsed => { state with timeElapsed := timeElapsed }
  | .RESET_GAME =>
    { initialGameState with difficulty := state.difficulty, category := state.category }
  | .COMPLETE_GAME => { state with gameStatus := .completed }

/-- The evaluation effect (`useGameState.ts:269`): when exactly two cards are
buffered and both exist on the board, dispatch `MATCH_CARDS` if their
`pairId`s agree and `UNMATCH_CARDS` otherwise. -/
def evaluateFlipped (state : GameState) : GameState :=
  match state.flippedCards with
  | [firstCardId, secondCardId] =>
    match state.board.find? (fun c => c.id == firstCardId),
          state.board.find? (fun c => c.id == secondCardId) with
    | some firstCard, some secondCard =>
      if firstCard.pairId == secondCard.pairId then
        gameReducer state (.MATCH_CARDS [firstCardId, secondCardId])
      else
        gameReducer state (.UNMATCH_CARDS [firstCardId, secondCardId])
    | _, _ => state
  | _ => state

/-- The operations the session engine's public surface can perform on a
state, plus the evaluation step the effect performs. -/
inductive SessionOp
  | startGame (difficulty : Difficulty) (category : EmojiCategory) (rand : ℕ → ℕ)
  | flip (cardId : ℕ)
  | evaluate
  | pause
  | resume
  | updateTime (t : ℤ)
  | reset
  | complete

def stepOp (s : GameState) : SessionOp → GameState
  | .startGame d c r => gameReducer s (.START_GAME d c r)
  | .flip cardId => gameReducer s (.FLIP_CARD cardId)
  | .evaluate => evaluateFlipped s
  | .pause => gameReducer s .PAUSE_GAME
  | .resume => gameReducer s .RESUME_GAME
  | .updateTime t => gameReducer s (.UPDATE_TIME t)
  | .reset => gameReducer s .RESET_GAME
  | .complete => gameReducer s .COMPLETE_GAME

def runOps (s : GameState) (ops : List SessionOp) : GameState :=
  ops.foldl stepOp s

/-- States reachable from a `startGame` by the session operations. -/
def Reachable (s : GameState) : Prop :=
  ∃ (d : Difficulty) (c : EmojiCategory) (rand : ℕ → ℕ) (ops : List SessionOp),
    s = runOps (stepOp initialGameState (.startGame d c rand)) ops

/-! ### Timer (`src/app/hooks/useTimer.ts`)

State of the hook: the visible `timerState` plus the two refs. Wall-clock
instants (`Date.now()`) are explicit `now` arguments in milliseconds; the
1-second interval callback is `tick`, which exists exactly while the timer
is running and not paused (the interval is installed by `start` and cleared
by `pause`/`stop`). -/

structure TimerSt where
  timeElapsed : ℤ
  isRunning : Bool
  isPaused : Bool
  startTime : ℤ
  pausedTime : ℤ
deriving DecidableEq

namespace UseTimer

def initialTimer : TimerSt :=
  { timeElapsed := 0, isRunning := false, isPaused := false, startTime := 0, pausedTime := 0 }

def start (st : TimerSt) (now : ℤ) : TimerSt :=
  if st.isRunning && !st.isPaused then st
  else if st.isPaused then
    { st with startTime := now - st.pausedTime, isRunning := true, isPaused := false }
  else
    { st with startTime := now, timeElapsed := 0, isRunning := true, isPaused := false }

/-- The interval callback: `elapsed = Math.floor((now - startTime) / 1000)`.
Fires only while the interval is installed. -/
def tick (st : TimerSt) (now : ℤ) : TimerSt :=
  if st.isRunning && !st.isPaused then
    { st with timeElapsed := (now - st.startTime) / 1000 }
  else st

def pause (st : TimerSt) : TimerSt :=
  if !st.isRunning || st.isPaused then st
  else
    { st with pausedTime := st.timeElapsed * 1000, isRunning := false, isPaused := true }

def resume (st : TimerSt) (now : ℤ) : TimerSt :=
  if !st.isPaused then st else start st now

end UseTimer

/-! ### Acceptance predicate for `flipTile` and concrete session states used
as evaluation points. -/

/-- The conditions under which the `FLIP_CARD` branch of `gameReducer`
accepts a flip: status `playing`, the tile exists and is neither revealed
nor settled, and the selection buffer holds fewer than two entries. -/
def FlipAccepted (s : GameState) (cardId : ℕ) : Prop :=
  s.gameStatus = .playing ∧
  (match s.board.find? (fun c => c.id == cardId) with
   | some c => c.isFlipped = false ∧ c.isMatched = false
   | none => False) ∧
  s.flippedCards.length < 2

/-- A randomness oracle under which every Fisher–Yates step swaps an index
with itself, so the shuffle is the identity permutation (one concrete
resolution of `Math.random`). -/
def idRand : ℕ → ℕ := fun i => i

/-- Easy game started on the default 8-emoji food category with the identity
shuffle: 16 cards, ids `0..15`, `pairId`s `0,0,1,1,…,7,7`. -/
def startedEasyState : GameState :=
  stepOp initialGameState (.startGame .easy initialGameState.category idRand)

/-- The started game after flipping the two cards of pair 0; the evaluation
of this pair is now pending. -/
def oneFlipPairState : GameState := runOps startedEasyState [.flip 0, .flip 1]

/-- Flip both cards of pair `k`, then evaluate. -/
def playPair (k : ℕ) : List SessionOp := [.flip (2 * k), .flip (2 * k + 1), .evaluate]

/-- The started game played to completion (all 8 pairs matched) and then
paused. -/
def pausedCompletedState : GameState :=
  runOps startedEasyState ((List.range 8).flatMap playPair ++ [.pause])

/-- The started game paused while the evaluation of pair 0 is pending
(two cards buffered, settle delay not yet fired). -/
def pausedPendingState : GameState := runOps startedEasyState [.flip 0, .flip 1, .pause]

/-- A running, unpaused timer showing 5 elapsed seconds. -/
def runningTimerState : TimerSt :=
  { timeElapsed := 5, isRunning := true, isPaused := false, startTime := 0, pausedTime := 0 }

end MemoryGame

namespace MemoryGame

/-! ## Theorems -/

/-! ### Scoring function (claim C1 and the helpers it shares) -/

/-- `calculateTimeBonus` agrees with the spec formula
`max(0, round(1000 × (1 − t/300)))` for non-negative `t` (the source applies
`max` before `round`; the two orders agree). -/
theorem calculateTimeBonus_spec (t : ℤ) (ht : 0 ≤ t) :
    calculateTimeBonus t = max 0 (jsRound (1000 * (1 - (t : ℚ) / 300))) := by
  unfold calculateTimeBonus jsRound TIME_BONUS_MAX TIME_BONUS_THRESHOLD
  rcases eq_or_lt_of_le ht with h0 | hpos
  · rw [← h0]
    norm_num
  · rw [if_neg (by omega)]
    rcases le_or_lt (t : ℚ) 300 with hle | hgt
    · have hx : (0:ℚ) ≤ 1000 * (1 - (t : ℚ) / 300) := by nlinarith
      rw [max_eq_right hx, eq_comm, max_eq_right]
      exact Int.le_floor.mpr (by push_cast; linarith)
    · have hx : 1000 * (1 - (t : ℚ) / 300) < 0 := by nlinarith
      rw [max_eq_left hx.le, eq_comm, max_eq_left]
      · norm_num
      · calc ⌊1000 * (1 - (t : ℚ) / 300) + 1/2⌋ ≤ ⌊(0:ℚ) + 1/2⌋ :=
              Int.floor_le_floor (by linarith)
          _ ≤ 0 := by norm_num

/-- The two branches of `calculateMoveEfficiencyScore` both compute
`(optimalMoves − moves) × 10`. -/
theorem calculateMoveEfficiencyScore_spec (moves : ℕ) (d : Difficulty) :
    calculateMoveEfficiencyScore moves d =
      (((DIFFICULTY_CONFIGS d).pairs : ℤ) - (moves : ℤ)) * 10 := by
  unfold calculateMoveEfficiencyScore calculateOptimalMoves MOVE_PENALTY_MULTIPLIER
  dsimp only
  split
  · rename_i h
    rw [abs_of_nonpos h]
    ring
  · ring

/-- `calculateDifficultyBonus` with the multipliers spelled out. -/
theorem calculateDifficultyBonus_spec (baseScore : ℤ) (d : Difficulty) :
    calculateDifficultyBonus baseScore d =
      jsRound ((baseScore : ℚ) *
        ((match d with | .easy => (1:ℚ) | .medium => 3/2 | .hard => 2 | .expert => 5/2) - 1)) := by
  cases d <;> rfl

/-- The concrete scenario of §8: easy board, 8 pairs, 8 moves, 0 seconds,
completed. -/
theorem scenario2500 : (calculateScoreBreakdown .easy 0 8 8 true).totalScore = 2500 := by
  norm_num [calculateScoreBreakdown, calculateDifficultyBonus, calculateTimeBonus,
    calculateMoveEfficiencyScore, calculateOptimalMoves, jsRound, DIFFICULTY_MULTIPLIERS,
    DIFFICULTY_CONFIGS, BASE_MATCH_POINTS, COMPLETION_BONUS, PERFECT_MATCH_BONUS,
    MOVE_PENALTY_MULTIPLIER, TIME_BONUS_MAX, TIME_BONUS_THRESHOLD]

/-- C1: for every difficulty, non-negative `elapsedSeconds`, `moves`,
`settledPairs` and completion flag, `calculateScoreBreakdown` returns
`baseScore = settledPairs × 100`,
`difficultyBonus = round(baseScore × (multiplier − 1))` with multipliers
easy 1.0 / medium 1.5 / hard 2.0 / expert 2.5; all four completion-gated
bonuses are 0 when not completed; when completed,
`timeBonus = max(0, round(1000 × (1 − t/300)))`,
`moveEfficiency = (optimalMoves − moves) × 10` with `optimalMoves` the
difficulty's pair count, `completionBonus = 200`, `perfectBonus = 500` iff
`moves = optimalMoves`; `totalScore` is the clamped sum; and the concrete
easy/0s/8-move/8-pair completed game scores 2500. -/
theorem C1_scoring_breakdown (d : Difficulty) (t : ℤ) (ht : 0 ≤ t)
    (moves settledPairs : ℕ) (completed : Bool) :
    (calculateScoreBreakdown d t moves settledPairs completed).baseScore = (settledPairs : ℤ) * 100
    ∧ (calculateScoreBreakdown d t moves settledPairs completed).difficultyBonus =
        jsRound (((settledPairs : ℤ) * 100 : ℚ) *
          ((match d with | .easy => (1:ℚ) | .medium => 3/2 | .hard => 2 | .expert => 5/2) - 1))
    ∧ (completed = false →
        (calculateScoreBreakdown d t moves settledPairs completed).timeBonus = 0
        ∧ (calculateScoreBreakdown d t moves settledPairs completed).moveEfficiency = 0
        ∧ (calculateScoreBreakdown d t moves settledPairs completed).completionBonus = 0
        ∧ (calculateScoreBreakdown d t moves settledPairs completed).perfectBonus = 0)
    ∧ (completed = true →
        (calculateScoreBreakdown d t moves settledPairs completed).timeBonus =
            max 0 (jsRound (1000 * (1 - (t : ℚ) / 300)))
        ∧ (calculateScoreBreakdown d t moves settledPairs completed).moveEfficiency =
            (((DIFFICULTY_CONFIGS d).pairs : ℤ) - (moves : ℤ)) * 10
        ∧ (calculateScoreBreakdown d t moves settledPairs completed).completionBonus = 200
        ∧ (calculateScoreBreakdown d t moves settledPairs completed).perfectBonus =
            (if moves = (DIFFICULTY_CONFIGS d).pairs then 500 else 0))
    ∧ (calculateScoreBreakdown d t moves settledPairs completed).totalScore =
        max 0 ((calculateScoreBreakdown d t moves settledPairs completed).baseScore
          + (calculateScoreBreakdown d t moves settledPairs completed).difficultyBonus
          + (calculateScoreBreakdown d t moves settledPairs completed).timeBonus
          + (calculateScoreBreakdown d t moves settledPairs completed).moveEfficiency
          + (calculateScoreBreakdown d t moves settledPairs completed).completionBonus
          + (calculateScoreBreakdown d t moves settledPairs completed).perfectBonus)
    ∧ (calculateScoreBreakdown .easy 0 8 8 true).totalScore = 2500 := by
  refine ⟨?_, ?_, ?_, ?_, ?_, scenario2500⟩
  · simp [calculateScoreBreakdown, BASE_MATCH_POINTS]
  · simp only [calculateScoreBreakdown, BASE_MATCH_POINTS]
    rw [calculateDifficultyBonus_spec]
    congr 1
    push_cast
    ring
  · intro hc
    subst hc
    simp [calculateScoreBreakdown]
  · intro hc
    subst hc
    refine ⟨?_, ?_, ?_, ?_⟩
    · simp only [calculateScoreBreakdown, if_true]
      exact calculateTimeBonus_spec t ht
    · simp only [calculateScoreBreakdown, if_true]
      exact calculateMoveEfficiencyScore_spec moves d
    · simp [calculateScoreBreakdown, COMPLETION_BONUS]
    · simp [calculateScoreBreakdown, calculateOptimalMoves, PERFECT_MATCH_BONUS]
  · simp [calculateScoreBreakdown]

/-- Witness for C1: the hypothesis `0 ≤ t` is satisfiable (at `t = 5`,
difficulty medium, 3 moves, 4 settled pairs, completed). -/
theorem C1_scoring_breakdown_witness :
    (0 : ℤ) ≤ 5
    ∧ (calculateScoreBreakdown .medium 5 3 4 true).baseScore = ((4 : ℕ) : ℤ) * 100 :=
  ⟨by decide, (C1_scoring_breakdown .medium 5 (by decide) 3 4 true).1⟩

/-! ### Session reducer: reset frame (C10), pause/resume guards (C7),
score refinement (C2) -/

/-- C10: `resetGame` returns the initial setup state (empty board, empty
selection buffer, empty matched-pairs list, zero moves/time/score, status
`setup`) carrying over exactly the difficulty and category of the pre-reset
state. -/
theorem C10_reset_frame (s : GameState) :
    gameReducer s .RESET_GAME =
      { initialGameState with difficulty := s.difficulty, category := s.category }
    ∧ (gameReducer s .RESET_GAME).board = []
    ∧ (gameReducer s .RESET_GAME).flippedCards = []
    ∧ (gameReducer s .RESET_GAME).matchedPairs = []
    ∧ (gameReducer s .RESET_GAME).moves = 0
    ∧ (gameReducer s .RESET_GAME).timeElapsed = 0
    ∧ (gameReducer s .RESET_GAME).score = 0
    ∧ (gameReducer s .RESET_GAME).gameStatus = .setup
    ∧ (gameReducer s .RESET_GAME).difficulty = s.difficulty
    ∧ (gameReducer s .RESET_GAME).category = s.category :=
  ⟨rfl, rfl, rfl, rfl, rfl, rfl, rfl, rfl, rfl, rfl⟩

/-- Counterexample to C7: called in status `setup`, `pauseGame` is not a
no-op — it changes the status to `paused`. -/
theorem C7_counterexample :
    initialGameState.gameStatus = .setup
    ∧ gameReducer initialGameState .PAUSE_GAME ≠ initialGameState := by
  constructor
  · rfl
  · intro h
    have := congrArg GameState.gameStatus h
    simp [gameReducer, initialGameState] at this

/-- C7 (amended): `pauseGame` always sets the status to `paused` and
`resumeGame` always sets it to `playing`, whatever the current status,
changing no other field; consequently pause-when-already-paused and
resume-when-already-playing are no-ops, but calls from `setup` or
`completed` do change the state. -/
theorem C7_amended (s : GameState) :
    gameReducer s .PAUSE_GAME = { s with gameStatus := .paused }
    ∧ gameReducer s .RESUME_GAME = { s with gameStatus := .playing }
    ∧ (s.gameStatus = .paused → gameReducer s .PAUSE_GAME = s)
    ∧ (s.gameStatus = .playing → gameReducer s .RESUME_GAME = s) := by
  refine ⟨rfl, rfl, ?_, ?_⟩ <;> intro h <;> cases s <;> simp_all [gameReducer]

/-- Witness for C7 (amended): pausing an already-paused state is a no-op. -/
theorem C7_amended_witness :
    gameReducer { initialGameState with gameStatus := .paused } .PAUSE_GAME
      = { initialGameState with gameStatus := .paused } :=
  (C7_amended _).2.2.1 rfl

/-- C2 (amended): the `MATCH_CARDS` transition does not recompute the score
with `calculateScoreBreakdown`; it adds to the running score the ad-hoc
amount `100 + max(0, 1000 − timeElapsed) + max(0, 1000 − 10 × newMoves)`. -/
theorem C2_amended (s : GameState) (a b : ℕ) :
    (gameReducer s (.MATCH_CARDS [a, b])).score =
      s.score + 100 + max 0 (1000 - s.timeElapsed)
        + max 0 (1000 - ((s.moves : ℤ) + 1) * 10) := by
  simp only [gameReducer]
  push_cast
  ring_nf

/-- Counterexample to C2: in the first accepted match of an easy game
(elapsed 0, one move, one matched pair, not completed) the reducer stores
score 2090, while `calculateScoreBreakdown` on the same arguments yields
`totalScore = 100`. -/
theorem C2_counterexample :
    (evaluateFlipped oneFlipPairState).gameStatus = .playing
    ∧ (evaluateFlipped oneFlipPairState).moves = 1
    ∧ (evaluateFlipped oneFlipPairState).matchedPairs.length = 1
    ∧ (evaluateFlipped oneFlipPairState).difficulty = .easy
    ∧ oneFlipPairState.timeElapsed = 0
    ∧ (evaluateFlipped oneFlipPairState).score = 2090
    ∧ (calculateScoreBreakdown .easy 0 1 1 false).totalScore = 100
    ∧ (evaluateFlipped oneFlipPairState).score ≠
        (calculateScoreBreakdown .easy 0 1 1 false).totalScore := by
  have hb : (calculateScoreBreakdown .easy 0 1 1 false).totalScore = 100 := by
    norm_num [calculateScoreBreakdown, calculateDifficultyBonus, calculateTimeBonus,
      calculateMoveEfficiencyScore, calculateOptimalMoves, jsRound, DIFFICULTY_MULTIPLIERS,
      DIFFICULTY_CONFIGS, BASE_MATCH_POINTS, COMPLETION_BONUS, PERFECT_MATCH_BONUS,
      MOVE_PENALTY_MULTIPLIER, TIME_BONUS_MAX, TIME_BONUS_THRESHOLD]
  refine ⟨by decide, by decide, by decide, by decide, by decide, by decide, hb, ?_⟩
  rw [hb]
  decide

/-! ### Flip guards and `canFlipCard` (C6) -/

/-- The `FLIP_CARD` branch of the reducer, written out. -/
theorem gameReducer_flip_eq (s : GameState) (cardId : ℕ) :
    gameReducer s (.FLIP_CARD cardId) =
      if s.gameStatus ≠ .playing then s
      else
        match s.board.find? (fun c => c.id == cardId) with
        | none => s
        | some card =>
          if card.isFlipped || card.isMatched then s
          else if 2 ≤ s.flippedCards.length then s
          else
            { s with
              board := s.board.map fun c =>
                if c.id == cardId then { c with isFlipped := true } else c
              flippedCards := s.flippedCards ++ [cardId] } := rfl

/-- C6: `flipTile` changes the state only when the status is `playing`, the
tile exists, is neither revealed nor settled, and the buffer holds fewer
than 2 entries; in every other case the returned state is the input state;
and `canFlipCard` returns `true` exactly on the accepted `(state, tileId)`
pairs. -/
theorem C6_flip_guards (s : GameState) (cardId : ℕ) :
    (¬ FlipAccepted s cardId → gameReducer s (.FLIP_CARD cardId) = s)
    ∧ (FlipAccepted s cardId → gameReducer s (.FLIP_CARD cardId) ≠ s)
    ∧ (GameLogic.canFlipCard (GameLogic.getCardById s.board cardId)
        s.flippedCards.length s.gameStatus = true ↔ FlipAccepted s cardId) := by
  refine ⟨?_, ?_, ?_⟩
  · intro hn
    rw [gameReducer_flip_eq]
    by_cases hst : s.gameStatus = .playing
    · rw [if_neg (by simp [hst])]
      cases hfind : s.board.find? (fun c => c.id == cardId) with
      | none => rfl
      | some card =>
        simp only
        by_cases hfm : card.isFlipped || card.isMatched
        · rw [if_pos hfm]
        · rw [if_neg hfm]
          by_cases hlen : 2 ≤ s.flippedCards.length
          · rw [if_pos hlen]
          · exfalso
            apply hn
            refine ⟨hst, ?_, by omega⟩
            rw [hfind]
            simp only [Bool.or_eq_true, not_or] at hfm
            exact ⟨by simpa using hfm.1, by simpa using hfm.2⟩
    · rw [if_pos (by simp [hst])]
  · intro ⟨hst, hcard, hlen⟩ heq
    rw [gameReducer_flip_eq, if_neg (by simp [hst])] at heq
    cases hfind : s.board.find? (fun c => c.id == cardId) with
    | none => rw [hfind] at hcard; exact hcard
    | some card =>
      rw [hfind] at hcard heq
      simp only at heq
      rw [if_neg (by simp [hcard.1, hcard.2]), if_neg (by omega)] at heq
      have := congrArg (fun st => st.flippedCards.length) heq
      simp at this
  · unfold GameLogic.canFlipCard GameLogic.getCardById FlipAccepted
    cases hfind : s.board.find? (fun c => c.id == cardId) with
    | none => simp
    | some card =>
      simp only
      split_ifs with h1 h2 h3
      · constructor
        · intro h; simp at h
        · rintro ⟨ha, -, -⟩; exact absurd ha h1
      · constructor
        · intro h; simp at h
        · rintro ⟨-, ⟨hf, hm⟩, -⟩
          rw [hf, hm] at h2
          simp at h2
      · constructor
        · intro h; simp at h
        · rintro ⟨-, -, hl⟩; omega
      · rw [not_ne_iff] at h1
        simp only [Bool.or_eq_true, not_or, Bool.not_eq_true] at h2
        exact ⟨fun _ => ⟨h1, ⟨h2.1, h2.2⟩, by omega⟩, fun _ => rfl⟩

/-- Witness for C6: flipping in the setup state (no board) is rejected
unchanged. -/
theorem C6_flip_guards_witness :
    gameReducer initialGameState (.FLIP_CARD 0) = initialGameState :=
  (C6_flip_guards initialGameState 0).1 (fun h => nomatch h.1)

/-! ### Turn invariant (C4) -/

/-- Every reducer action preserves "selection buffer has at most 2
entries". -/
theorem flipped_le_two_reducer (s : GameState) (a : GameAction)
    (h : s.flippedCards.length ≤ 2) : (gameReducer s a).flippedCards.length ≤ 2 := by
  cases a with
  | START_GAME d c r => simp [gameReducer]
  | FLIP_CARD cardId =>
    rw [gameReducer_flip_eq]
    split
    · exact h
    · cases hfind : s.board.find? (fun c => c.id == cardId) with
      | none => exact h
      | some card =>
        simp only
        split_ifs with h1 h2
        · exact h
        · exact h
        · simp
          omega
  | MATCH_CARDS ids =>
    rcases ids with _ | ⟨x, _ | ⟨y, _ | ⟨z, rest⟩⟩⟩ <;> first | exact h | simp [gameReducer]
  | UNMATCH_CARDS ids =>
    rcases ids with _ | ⟨x, _ | ⟨y, _ | ⟨z, rest⟩⟩⟩ <;> first | exact h | simp [gameReducer]
  | PAUSE_GAME => exact h
  | RESUME_GAME => exact h
  | UPDATE_TIME t => exact h
  | RESET_GAME => simp [gameReducer, initialGameState]
  | COMPLETE_GAME => exact h

/-- Every session operation preserves the buffer bound. -/
theorem flipped_le_two_step (s : GameState) (op : SessionOp)
    (h : s.flippedCards.length ≤ 2) : (stepOp s op).flippedCards.length ≤ 2 := by
  cases op with
  | evaluate =>
    show (evaluateFlipped s).flippedCards.length ≤ 2
    unfold evaluateFlipped
    rcases hf : s.flippedCards with _ | ⟨a, _ | ⟨b, _ | ⟨c, rest⟩⟩⟩
    · exact h
    · exact h
    · simp only
      cases hfa : s.board.find? (fun c => c.id == a) with
      | none => exact h
      | some ca =>
        cases hfb : s.board.find? (fun c => c.id == b) with
        | none => exact h
        | some cb =>
          simp only
          split_ifs <;> simp [gameReducer]
    · exact h
  | startGame d c r => exact flipped_le_two_reducer s _ h
  | flip cardId => exact flipped_le_two_reducer s _ h
  | pause => exact flipped_le_two_reducer s _ h
  | resume => exact flipped_le_two_reducer s _ h
  | updateTime t => exact flipped_le_two_reducer s _ h
  | reset => exact flipped_le_two_reducer s _ h
  | complete => exact flipped_le_two_reducer s _ h

/-- The buffer bound is preserved along any operation sequence. -/
theorem flipped_le_two_runOps (ops : List SessionOp) (s : GameState)
    (h : s.flippedCards.length ≤ 2) : (runOps s ops).flippedCards.length ≤ 2 := by
  induction ops generalizing s with
  | nil => exact h
  | cons op rest ih => exact ih _ (flipped_le_two_step s op h)

/-- An accepted or rejected single flip never changes `moves`. -/
theorem stepOp_flip_moves (s : GameState) (cardId : ℕ) :
    (stepOp s (.flip cardId)).moves = s.moves := by
  show (gameReducer s (.FLIP_CARD cardId)).moves = s.moves
  rw [gameReducer_flip_eq]
  split
  · rfl
  · cases hfind : s.board.find? (fun c => c.id == cardId) with
    | none => rfl
    | some card =>
      simp only
      split_ifs <;> rfl

/-- A completed two-tile evaluation (two buffered ids, both on the board)
increments `moves` by exactly 1, whether it is a match or a mismatch. -/
theorem stepOp_evaluate_moves (s : GameState) (a b : ℕ) (ca cb : Card)
    (hf : s.flippedCards = [a, b])
    (ha : s.board.find? (fun c => c.id == a) = some ca)
    (hb : s.board.find? (fun c => c.id == b) = some cb) :
    (stepOp s .evaluate).moves = s.moves + 1 := by
  show (evaluateFlipped s).moves = s.moves + 1
  unfold evaluateFlipped
  simp only [hf, ha, hb]
  split_ifs <;> simp [gameReducer]

/-- C4: in every reachable session state the selection buffer has size 0, 1
or 2; `moves` increases by exactly 1 on each completed two-tile evaluation
and by 0 on every single flip. -/
theorem C4_turn_invariant :
    (∀ s : GameState, Reachable s → s.flippedCards.length ≤ 2)
    ∧ (∀ (s : GameState) (cardId : ℕ), (stepOp s (.flip cardId)).moves = s.moves)
    ∧ (∀ (s : GameState) (a b : ℕ) (ca cb : Card),
        s.flippedCards = [a, b] →
        s.board.find? (fun c => c.id == a) = some ca →
        s.board.find? (fun c => c.id == b) = some cb →
        (stepOp s .evaluate).moves = s.moves + 1) := by
  refine ⟨?_, stepOp_flip_moves, stepOp_evaluate_moves⟩
  rintro s ⟨d, c, rand, ops, rfl⟩
  apply flipped_le_two_runOps
  simp [stepOp, gameReducer]

/-- Witness for C4 at the freshly started easy game and at the pending
evaluation of pair 0. -/
theorem C4_turn_invariant_witness :
    startedEasyState.flippedCards.length ≤ 2
    ∧ (stepOp oneFlipPairState .evaluate).moves = oneFlipPairState.moves + 1 :=
  ⟨C4_turn_invariant.1 startedEasyState ⟨.easy, initialGameState.category, idRand, [], rfl⟩,
   C4_turn_invariant.2.2 oneFlipPairState 0 1
     { id := 0, emoji := "🍎", isFlipped := true, isMatched := false, pairId := 0 }
     { id := 1, emoji := "🍎", isFlipped := true, isMatched := false, pairId := 0 }
     (by decide) (by decide) (by decide)⟩

/-! ### Completion invariant (C3) -/

/-- Counterexample to C3: play an easy game to completion and then call
`pauseGame` (the reducer accepts it, cf. C7): the resulting reachable state
has all 8 pairs matched but status `paused`, violating
"status = completed iff matched pairs = total pairs". -/
theorem C3_counterexample :
    Reachable pausedCompletedState
    ∧ pausedCompletedState.matchedPairs.length
        = (DIFFICULTY_CONFIGS pausedCompletedState.difficulty).pairs
    ∧ pausedCompletedState.gameStatus ≠ .completed :=
  ⟨⟨.easy, initialGameState.category, idRand, (List.range 8).flatMap playPair ++ [SessionOp.pause], rfl⟩,
   by decide, by decide⟩

/-- C3 (amended): in any state whose status is `completed`, `flipTile` is a
no-op; and a `MATCH_CARDS` evaluation leaves the status `completed` exactly
when the updated matched-pair count equals the difficulty's pair count.
The two-sided iff over all reachable states fails, because pause/resume/
complete change the status without regard to the matched-pair count. -/
theorem C3_amended :
    (∀ (s : GameState) (cardId : ℕ),
      s.gameStatus = .completed → stepOp s (.flip cardId) = s)
    ∧ (∀ (s : GameState) (a b : ℕ),
        (gameReducer s (.MATCH_CARDS [a, b])).gameStatus = .completed ↔
          (gameReducer s (.MATCH_CARDS [a, b])).matchedPairs.length
            = (DIFFICULTY_CONFIGS s.difficulty).pairs) := by
  constructor
  · intro s cardId h
    show gameReducer s (.FLIP_CARD cardId) = s
    rw [gameReducer_flip_eq, if_pos (by simp [h])]
  · intro s a b
    simp only [gameReducer]
    split
    · rename_i hc
      simp only [beq_iff_eq] at hc
      simpa using hc
    · rename_i hc
      simp only [beq_iff_eq] at hc
      constructor
      · intro h
        exact absurd h (by simp)
      · intro h
        exact absurd h hc

/-- Witness for C3 (amended): a completed state rejects a flip. -/
theorem C3_amended_witness :
    stepOp { initialGameState with gameStatus := .completed } (.flip 0)
      = { initialGameState with gameStatus := .completed } :=
  C3_amended.1 { initialGameState with gameStatus := .completed } 0 rfl

/-! ### Stale evaluation after pause (C8) and timer pause-correctness (C9) -/

/-- C8 at its failing input: pause a game with a pending two-tile
evaluation. `PAUSE_GAME` changes neither `flippedCards` nor `board` (the
effect's dependencies), so the settle timeout is not cancelled; when it
fires, `MATCH_CARDS` — which has no status guard — settles both tiles,
increments `moves`, and even moves the paused session back to `playing`. -/
theorem C8_stale_evaluation_mutates_paused :
    Reachable pausedPendingState
    ∧ pausedPendingState.gameStatus = .paused
    ∧ pausedPendingState.flippedCards = [0, 1]
    ∧ (evaluateFlipped pausedPendingState).moves = pausedPendingState.moves + 1
    ∧ (∃ c ∈ (evaluateFlipped pausedPendingState).board, c.id = 0 ∧ c.isMatched = true)
    ∧ (evaluateFlipped pausedPendingState).gameStatus = .playing :=
  ⟨⟨.easy, initialGameState.category, idRand,
      [SessionOp.flip 0, SessionOp.flip 1, SessionOp.pause], rfl⟩,
   by decide, by decide, by decide, by decide, by decide⟩

/-- C9: start, tick to 2000ms, pause, resume at 3000ms, tick at 4000ms
gives `elapsedSeconds = 3` — the paused interval contributes zero — and in
general pausing preserves `timeElapsed` exactly and a tick `d` ms after an
arbitrary resume shows `timeElapsed + d/1000`, independent of how long the
timer sat paused. -/
theorem C9_timer_pause_correct :
    (∀ T : ℤ,
      (UseTimer.tick
        (UseTimer.resume
          (UseTimer.pause
            (UseTimer.tick (UseTimer.tick (UseTimer.start UseTimer.initialTimer T) (T + 1000))
              (T + 2000)))
          (T + 3000))
        (T + 4000)).timeElapsed = 3)
    ∧ (∀ (st : TimerSt) (tR d : ℤ), st.isRunning = true → st.isPaused = false →
        (UseTimer.pause st).timeElapsed = st.timeElapsed
        ∧ (UseTimer.tick (UseTimer.resume (UseTimer.pause st) tR) (tR + d)).timeElapsed
            = st.timeElapsed + d / 1000) := by
  constructor
  · intro T
    simp only [UseTimer.start, UseTimer.tick, UseTimer.pause, UseTimer.resume,
      UseTimer.initialTimer]
    norm_num
    omega
  · intro st tR d hrun hpause
    constructor
    · simp [UseTimer.pause, hrun, hpause]
    · simp only [UseTimer.pause, UseTimer.resume, UseTimer.start, UseTimer.tick,
        hrun, hpause]
      norm_num
      omega

/-- Witness for C9 on a running timer showing 5s, resumed at 100000ms and
ticked 2500ms later. -/
theorem C9_timer_pause_correct_witness :
    runningTimerState.isRunning = true
    ∧ runningTimerState.isPaused = false
    ∧ ((UseTimer.pause runningTimerState).timeElapsed = runningTimerState.timeElapsed
      ∧ (UseTimer.tick (UseTimer.resume (UseTimer.pause runningTimerState) 100000)
          (100000 + 2500)).timeElapsed = runningTimerState.timeElapsed + 2500 / 1000) :=
  ⟨rfl, rfl, C9_timer_pause_correct.2 runningTimerState 100000 2500 rfl rfl⟩

/-! ### Board generation (C5): the shuffle permutes, boards validate -/


/-- An element read at a valid index occurs at least once. -/
theorem count_ge_one_of_getElem {α : Type} [DecidableEq α] (l : List α) (i : ℕ)
    (hil : i < l.length) (x : α) (hx : (l[i] == x) = true) : 1 ≤ l.count x := by
  have hm : x ∈ l := (beq_iff_eq.mp hx) ▸ List.getElem_mem hil
  exact List.count_pos_iff.mpr hm

/-- A Fisher–Yates swap is a permutation of the list. -/
theorem listSwap_perm {α : Type} [DecidableEq α] (l : List α) (i j : ℕ) :
    (listSwap l i j).Perm l := by
  unfold listSwap
  split
  · rename_i a b hi hj
    obtain ⟨hil, hia⟩ := List.getElem?_eq_some.mp hi
    obtain ⟨hjl, hjb⟩ := List.getElem?_eq_some.mp hj
    subst hia
    subst hjb
    rw [List.perm_iff_count]
    intro x
    by_cases hij : i = j
    · subst hij
      rw [List.set_set, List.count_set l[i] x l i hil]
      by_cases hx : (l[i] == x) = true
      · have := count_ge_one_of_getElem l i hil x hx
        simp only [hx, if_true]
        omega
      · simp [hx]
    · have hjl' : j < (l.set i l[j]).length := by simpa using hjl
      rw [List.count_set l[i] x (l.set i l[j]) j hjl',
        List.count_set l[j] x l i hil,
        List.getElem_set_ne (a := l[j]) hij hjl']
      by_cases hx1 : (l[i] == x) = true
      · have h1 := count_ge_one_of_getElem l i hil x hx1
        by_cases hx2 : (l[j] == x) = true
        · simp only [hx1, hx2, if_true]
          omega
        · simp [hx1, hx2]
          omega
      · by_cases hx2 : (l[j] == x) = true
        · have h2 := count_ge_one_of_getElem l j hjl x hx2
          simp [hx1, hx2]
        · simp [hx1, hx2]
  · exact List.Perm.refl l

/-- Every prefix of the Fisher–Yates loop permutes the list. -/
theorem fyAux_perm {α : Type} [DecidableEq α] (rand : ℕ → ℕ) (n : ℕ) (l : List α) :
    (fyAux rand n l).Perm l := by
  induction n generalizing l with
  | zero => exact List.Perm.refl l
  | succ i ih => exact (ih _).trans (listSwap_perm l (i + 1) (rand (i + 1) % (i + 2)))

/-- The shuffle returns a permutation of its input (§8 shuffle
correctness). -/
theorem fisherYatesShuffle_perm {α : Type} [DecidableEq α] (rand : ℕ → ℕ) (l : List α) :
    (fisherYatesShuffle rand l).Perm l :=
  fyAux_perm rand (l.length - 1) l

/-- The shuffle preserves length. -/
theorem fisherYatesShuffle_length {α : Type} [DecidableEq α] (rand : ℕ → ℕ) (l : List α) :
    (fisherYatesShuffle rand l).length = l.length :=
  (fisherYatesShuffle_perm rand l).length_eq

/-- Emitting two items per element doubles the length. -/
theorem flatMap_pair_length {β γ : Type} (l : List β) (f g : β → γ) :
    (l.flatMap fun x => [f x, g x]).length = 2 * l.length := by
  induction l with
  | nil => simp
  | cons a t ih =>
    simp only [List.flatMap_cons, List.length_append, List.length_cons, ih]
    simp
    omega

/-- Mapping over a two-per-element `flatMap`. -/
theorem map_flatMap_pair {β γ δ : Type} (l : List β) (f g : β → γ) (h : γ → δ) :
    ((l.flatMap fun x => [f x, g x]).map h) = l.flatMap fun x => [h (f x), h (g x)] := by
  induction l with
  | nil => simp
  | cons a t ih => simp [ih]

/-- Occurrence counts double through a duplicate-each-element
`flatMap`. -/
theorem count_flatMap_pair {β γ : Type} [DecidableEq γ] (l : List β) (f : β → γ) (k : γ) :
    ((l.flatMap fun x => [f x, f x]).count k) = 2 * ((l.map f).count k) := by
  induction l with
  | nil => simp
  | cons a t ih =>
    by_cases hk : f a = k
    · simp [List.count_cons, List.count_append, ih, hk]
      omega
    · simp [List.count_cons, List.count_append, ih, hk]

/-- Each value below `n` occurs exactly once in `range n`. -/
theorem count_range_eq (n k : ℕ) : (List.range n).count k = if k < n then 1 else 0 := by
  induction n with
  | zero => simp
  | succ m ih =>
    rw [List.range_succ, List.count_append, ih]
    by_cases hk : k = m
    · subst hk
      simp
    · have hc : List.count k [m] = 0 := by
        simp [List.count_singleton]
        omega
      rw [hc]
      by_cases hk2 : k < m
      · rw [if_pos hk2, if_pos (by omega)]
      · rw [if_neg hk2, if_neg (by omega)]

/-- `mkPairedCards` emits two cards per selected symbol. -/
theorem mkPairedCards_length (sel : List String) :
    (GameLogic.mkPairedCards sel).length = 2 * sel.length := by
  unfold GameLogic.mkPairedCards
  rw [flatMap_pair_length]
  simp

/-- The `pairId`s of the freshly built cards, in order. -/
theorem mkPairedCards_map_pairId (sel : List String) :
    (GameLogic.mkPairedCards sel).map (·.pairId) = sel.enum.flatMap fun pe => [pe.1, pe.1] := by
  unfold GameLogic.mkPairedCards
  rw [map_flatMap_pair]

/-- Every `pairId` below the selection size occurs on exactly two fresh
cards. -/
theorem mkPairedCards_count_pairId (sel : List String) (k : ℕ) :
    ((GameLogic.mkPairedCards sel).map (·.pairId)).count k =
      if k < sel.length then 2 else 0 := by
  rw [mkPairedCards_map_pairId, count_flatMap_pair, List.enum_map_fst, count_range_eq]
  split <;> omega

/-- Fresh cards are face down and carry the selected symbol of their
`pairId`. -/
theorem mkPairedCards_props (sel : List String) :
    ∀ c ∈ GameLogic.mkPairedCards sel,
      c.isFlipped = false ∧ c.isMatched = false ∧ c.pairId < sel.length
        ∧ c.emoji = sel.getD c.pairId "" := by
  intro c hc
  unfold GameLogic.mkPairedCards at hc
  rw [List.mem_flatMap] at hc
  obtain ⟨pe, hpe, hc⟩ := hc
  have hget : sel[pe.1]? = some pe.2 := List.mem_enum_iff_getElem?.mp hpe
  obtain ⟨hlt, hval⟩ := List.getElem?_eq_some.mp hget
  have hgetD : sel.getD pe.1 "" = pe.2 := by
    rw [List.getD_eq_getElem?_getD, hget]
    rfl
  simp only [List.mem_cons, List.mem_singleton, List.not_mem_nil, or_false] at hc
  rcases hc with rfl | rfl
  · exact ⟨rfl, rfl, hlt, hgetD.symm⟩
  · exact ⟨rfl, rfl, hlt, hgetD.symm⟩

/-- Re-deriving ids preserves length. -/
theorem reassignIds_length (l : List Card) :
    (GameLogic.reassignIds l).length = l.length := by
  simp [GameLogic.reassignIds]

/-- After re-deriving, the card at position `i` is the shuffled card with
`id := i`. -/
theorem reassignIds_getElem (l : List Card) (i : ℕ) (h : i < l.length) :
    (GameLogic.reassignIds l).get ⟨i, by simpa [GameLogic.reassignIds] using h⟩ =
      { l.get ⟨i, h⟩ with id := i } := by
  simp [GameLogic.reassignIds]

/-- Re-deriving ids leaves any id-independent field map unchanged. -/
theorem reassignIds_map_field {β : Type} (l : List Card) (g : Card → β)
    (hg : ∀ (c : Card) (i : ℕ), g { c with id := i } = g c) :
    (GameLogic.reassignIds l).map g = l.map g := by
  unfold GameLogic.reassignIds
  rw [List.map_map]
  have hfun : (g ∘ fun p : ℕ × Card => { p.2 with id := p.1 }) = g ∘ Prod.snd :=
    funext fun p => hg p.2 p.1
  rw [hfun, ← List.map_map, List.enum_map_snd]

/-- Every re-derived card agrees with some shuffled card on all fields but
`id`. -/
theorem reassignIds_mem (l : List Card) (c : Card) (hc : c ∈ GameLogic.reassignIds l) :
    ∃ c' ∈ l, c.emoji = c'.emoji ∧ c.pairId = c'.pairId
      ∧ c.isFlipped = c'.isFlipped ∧ c.isMatched = c'.isMatched := by
  unfold GameLogic.reassignIds at hc
  rw [List.mem_map] at hc
  obtain ⟨p, hp, rfl⟩ := hc
  have hget : l[p.1]? = some p.2 := List.mem_enum_iff_getElem?.mp hp
  exact ⟨p.2, List.getElem?_mem hget, rfl, rfl, rfl, rfl⟩

/-- Membership in a duplicate-each-element `flatMap`. -/
theorem mem_flatMap_pair_iff {β γ : Type} (l : List β) (f : β → γ) (x : γ) :
    (x ∈ l.flatMap fun b => [f b, f b]) ↔ x ∈ l.map f := by
  simp only [List.mem_flatMap, List.mem_map, List.mem_cons, List.not_mem_nil, or_false]
  constructor
  · rintro ⟨b, hb, h | h⟩ <;> exact ⟨b, hb, h.symm⟩
  · rintro ⟨b, hb, h⟩
    exact ⟨b, hb, Or.inl h.symm⟩

/-- The generated board's `pairId`s are those of the shuffled cards. -/
theorem shuffledBoard_map_pairId (r2 : ℕ → ℕ) (sel : List String) :
    (GameLogic.reassignIds (fisherYatesShuffle r2 (GameLogic.mkPairedCards sel))).map (·.pairId)
      = (fisherYatesShuffle r2 (GameLogic.mkPairedCards sel)).map (·.pairId) :=
  reassignIds_map_field _ _ (fun _ _ => rfl)

/-- On the generated board every `pairId` below the selection size occurs
exactly twice, whatever the shuffle did. -/
theorem shuffledBoard_count_pairId (r2 : ℕ → ℕ) (sel : List String) (k : ℕ) :
    ((GameLogic.reassignIds (fisherYatesShuffle r2 (GameLogic.mkPairedCards sel))).map
        (·.pairId)).count k = if k < sel.length then 2 else 0 := by
  rw [shuffledBoard_map_pairId]
  rw [List.perm_iff_count.mp
    ((fisherYatesShuffle_perm r2 (GameLogic.mkPairedCards sel)).map (·.pairId)) k]
  exact mkPairedCards_count_pairId sel k

/-- Cards of the generated board are face down and carry their pair's
symbol. -/
theorem shuffledBoard_card_props (r2 : ℕ → ℕ) (sel : List String) :
    ∀ c ∈ GameLogic.reassignIds (fisherYatesShuffle r2 (GameLogic.mkPairedCards sel)),
      c.isFlipped = false ∧ c.isMatched = false ∧ c.pairId < sel.length
        ∧ c.emoji = sel.getD c.pairId "" := by
  intro c hc
  obtain ⟨c', hc', he, hp, hf, hm⟩ := reassignIds_mem _ c hc
  have hc'' : c' ∈ GameLogic.mkPairedCards sel :=
    (fisherYatesShuffle_perm r2 (GameLogic.mkPairedCards sel)).mem_iff.mp hc'
  obtain ⟨h1, h2, h3, h4⟩ := mkPairedCards_props sel c' hc''
  rw [he, hp, hf, hm]
  exact ⟨h1, h2, h3, h4⟩

/-- The generated board carries exactly `sel.length` distinct `pairId`s. -/
theorem shuffledBoard_dedup_length (r2 : ℕ → ℕ) (sel : List String) :
    ((GameLogic.reassignIds (fisherYatesShuffle r2 (GameLogic.mkPairedCards sel))).map
        (·.pairId)).dedup.length = sel.length := by
  rw [shuffledBoard_map_pairId]
  have hperm : ((fisherYatesShuffle r2 (GameLogic.mkPairedCards sel)).map (·.pairId)).Perm
      ((GameLogic.mkPairedCards sel).map (·.pairId)) :=
    (fisherYatesShuffle_perm r2 (GameLogic.mkPairedCards sel)).map (·.pairId)
  rw [hperm.dedup.length_eq]
  rw [← List.card_toFinset]
  have hfin : ((GameLogic.mkPairedCards sel).map (·.pairId)).toFinset
      = (List.range sel.length).toFinset := by
    ext a
    rw [List.mem_toFinset, List.mem_toFinset, mkPairedCards_map_pairId,
      mem_flatMap_pair_iff, List.enum_map_fst]
  rw [hfin, List.card_toFinset, List.dedup_eq_self.mpr (List.nodup_range sel.length)]
  exact List.length_range sel.length

/-- Filtering on a field value counts occurrences in the field map. -/
theorem filter_length_eq_count_map {β γ : Type} [DecidableEq γ] (l : List β) (f : β → γ)
    (k : γ) : (l.filter fun x => f x == k).length = (l.map f).count k := by
  rw [← List.countP_eq_length_filter, List.count, List.countP_map]
  rfl

/-- With a sufficient pool, `createGameBoard` succeeds with the
shuffled, id-re-derived paired board. -/
theorem createGameBoard_ok (r1 r2 : ℕ → ℕ) (d : Difficulty) (cat : EmojiCategory)
    (hle : (DIFFICULTY_CONFIGS d).pairs ≤ cat.emojis.length) :
    GameLogic.createGameBoard r1 r2 d cat =
      .ok (GameLogic.reassignIds (fisherYatesShuffle r2 (GameLogic.mkPairedCards
        ((fisherYatesShuffle r1 cat.emojis).take (DIFFICULTY_CONFIGS d).pairs)))) := by
  unfold GameLogic.createGameBoard GameLogic.generateEmojiPairs GameLogic.getRandomEmojis
    GameLogic.validateCategoryForDifficulty
  have h1 : ¬ cat.emojis.length < (DIFFICULTY_CONFIGS d).pairs := by omega
  simp [hle, h1]

/-- With an insufficient pool, `createGameBoard` throws (the
insufficient-symbols error) and produces no board. -/
theorem createGameBoard_error (r1 r2 : ℕ → ℕ) (d : Difficulty) (cat : EmojiCategory)
    (hlt : cat.emojis.length < (DIFFICULTY_CONFIGS d).pairs) :
    ∃ msg, GameLogic.createGameBoard r1 r2 d cat = Except.error msg := by
  unfold GameLogic.createGameBoard GameLogic.generateEmojiPairs
    GameLogic.validateCategoryForDifficulty
  have h1 : ¬ (DIFFICULTY_CONFIGS d).pairs ≤ cat.emojis.length := by omega
  simp [h1]

/-- C5: whenever the category pool has at least `pairCount` symbols,
`createGameBoard` returns a board of exactly `2 × pairCount` tiles, every
`pairKey` on it sits on exactly two tiles that carry the same symbol, ids
equal positions after the shuffle, all tiles start unrevealed and
unsettled, and `validateGameBoard` accepts it — for every resolution of
the randomness; with fewer symbols it throws the insufficient-symbols
error and produces no board. -/
theorem C5_board_generation (r1 r2 : ℕ → ℕ) (d : Difficulty) (cat : EmojiCategory) :
    ((DIFFICULTY_CONFIGS d).pairs ≤ cat.emojis.length →
      ∃ board, GameLogic.createGameBoard r1 r2 d cat = .ok board
        ∧ board.length = 2 * (DIFFICULTY_CONFIGS d).pairs
        ∧ (∀ k ∈ board.map (·.pairId), (board.filter fun c => c.pairId == k).length = 2)
        ∧ (∀ c1 ∈ board, ∀ c2 ∈ board, c1.pairId = c2.pairId → c1.emoji = c2.emoji)
        ∧ (∀ (i : ℕ) (h : i < board.length), (board.get ⟨i, h⟩).id = i)
        ∧ (∀ c ∈ board, c.isFlipped = false ∧ c.isMatched = false)
        ∧ GameLogic.validateGameBoard board d = true)
    ∧ (cat.emojis.length < (DIFFICULTY_CONFIGS d).pairs →
      ∃ msg, GameLogic.createGameBoard r1 r2 d cat = Except.error msg) := by
  refine ⟨?_, createGameBoard_error r1 r2 d cat⟩
  intro hle
  have hsellen : ((fisherYatesShuffle r1 cat.emojis).take (DIFFICULTY_CONFIGS d).pairs).length
      = (DIFFICULTY_CONFIGS d).pairs := by
    rw [List.length_take, fisherYatesShuffle_length]
    omega
  refine ⟨_, createGameBoard_ok r1 r2 d cat hle, ?_, ?_, ?_, ?_, ?_, ?_⟩
  · rw [reassignIds_length, fisherYatesShuffle_length, mkPairedCards_length, hsellen]
  · intro k hk
    rw [filter_length_eq_count_map]
    have hcount := shuffledBoard_count_pairId r2
      ((fisherYatesShuffle r1 cat.emojis).take (DIFFICULTY_CONFIGS d).pairs) k
    have hpos : 0 < ((GameLogic.reassignIds (fisherYatesShuffle r2 (GameLogic.mkPairedCards
        ((fisherYatesShuffle r1 cat.emojis).take (DIFFICULTY_CONFIGS d).pairs)))).map
          (·.pairId)).count k := List.count_pos_iff.mpr hk
    rw [hcount] at hpos ⊢
    split at hpos
    · rename_i hklt
      rw [if_pos hklt]
    · omega
  · intro c1 h1 c2 h2 hp
    have p1 := shuffledBoard_card_props r2 _ c1 h1
    have p2 := shuffledBoard_card_props r2 _ c2 h2
    rw [p1.2.2.2, p2.2.2.2, hp]
  · intro i h
    have h' : i < (fisherYatesShuffle r2 (GameLogic.mkPairedCards
        ((fisherYatesShuffle r1 cat.emojis).take (DIFFICULTY_CONFIGS d).pairs))).length := by
      rw [← reassignIds_length]
      exact h
    rw [reassignIds_getElem _ i h']
  · intro c hc
    have p := shuffledBoard_card_props r2 _ c hc
    exact ⟨p.1, p.2.1⟩
  · unfold GameLogic.validateGameBoard
    simp only [Bool.and_eq_true, beq_iff_eq]
    refine ⟨⟨?_, ?_⟩, ?_⟩
    · rw [reassignIds_length, fisherYatesShuffle_length, mkPairedCards_length, hsellen]
      omega
    · rw [List.all_eq_true]
      intro k hkdedup
      have hk : k ∈ (GameLogic.reassignIds (fisherYatesShuffle r2 (GameLogic.mkPairedCards
          ((fisherYatesShuffle r1 cat.emojis).take (DIFFICULTY_CONFIGS d).pairs)))).map
            (·.pairId) := List.mem_dedup.mp hkdedup
      have hpos := List.count_pos_iff.mpr hk
      have hcount := shuffledBoard_count_pairId r2
        ((fisherYatesShuffle r1 cat.emojis).take (DIFFICULTY_CONFIGS d).pairs) k
      rw [hcount] at hpos
      rw [beq_iff_eq, hcount]
      split at hpos
      · rename_i hklt
        rw [if_pos hklt]
      · omega
    · rw [shuffledBoard_dedup_length, hsellen]

/-- Witness for C5: easy (8 pairs) on the 8-emoji default food category
succeeds; medium (12 pairs) on the same category fails. -/
theorem C5_board_generation_witness :
    ((DIFFICULTY_CONFIGS Difficulty.easy).pairs ≤ initialGameState.category.emojis.length
      ∧ (∃ board, GameLogic.createGameBoard idRand idRand .easy initialGameState.category
            = .ok board
          ∧ board.length = 2 * (DIFFICULTY_CONFIGS Difficulty.easy).pairs
          ∧ (∀ k ∈ board.map (·.pairId), (board.filter fun c => c.pairId == k).length = 2)
          ∧ (∀ c1 ∈ board, ∀ c2 ∈ board, c1.pairId = c2.pairId → c1.emoji = c2.emoji)
          ∧ (∀ (i : ℕ) (h : i < board.length), (board.get ⟨i, h⟩).id = i)
          ∧ (∀ c ∈ board, c.isFlipped = false ∧ c.isMatched = false)
          ∧ GameLogic.validateGameBoard board .easy = true))
    ∧ (initialGameState.category.emojis.length < (DIFFICULTY_CONFIGS Difficulty.medium).pairs
      ∧ ∃ msg, GameLogic.createGameBoard idRand idRand .medium initialGameState.category
          = Except.error msg) :=
  ⟨⟨by decide,
    (C5_board_generation idRand idRand .easy initialGameState.category).1 (by decide)⟩,
   ⟨by decide,
    (C5_board_generation idRand idRand .medium initialGameState.category).2 (by decide)⟩⟩


end MemoryGame
